import Mathlib

/-! Shallow embedding of the Hire-to-Settlement workflow engine of
`fleet_app.py` (rental fleet console application backed by SQLite).

The embedding models:
- the relevant persisted tables as Lean lists inside a `Store` structure;
- the engine operations `add_hire`, `update_hire_status`, `search_hires`,
  `generate_invoice_no`, `create_invoice_from_hire`, `add_supplier_payment`
  as pure functions on `Store`, with the console-prompted values passed as
  arguments (interactive prompting itself carries no decision logic);
- Python `int(...)` parsing (ASCII digits, optional sign, surrounding
  whitespace, underscore digit grouping), Python `str.split("-")` and the
  `INV-0001`-style zero-padded formatting used by the invoice sequencer;
- SQLite `LIKE` matching (default behaviour: `%`/`_` wildcards,
  case-insensitive for the ASCII range);
- IEEE-754 double-precision arithmetic for `rate * quantity`
  (Python floats), as dyadic rationals with round-to-nearest-even.

SQLite-level behaviour that the Python code relies on is modelled where it
decides outcomes: the `CHECK(HireType IN (...))` column constraint on
`tblHire` (enforced by SQLite, aborting the INSERT), and the UNIQUE
constraint on `InvoiceNo`.  Foreign keys are NOT enforced (the application
never issues `PRAGMA foreign_keys=ON`, and SQLite defaults to off), so the
embedding performs no referential checks beyond the explicit
`record_exists` / `choose_from_table` calls in the source.
-/

set_option maxRecDepth 8000

namespace RentedFleet

/-! Section: Python `int(...)` parsing (restricted to ASCII digits) -/

/-- Characters stripped by Python `int` around a numeric literal. -/
def pyWs (c : Char) : Bool :=
  c = ' ' || c = '\t' || c = '\n' || c = '\r' || c = '\x0b' || c = '\x0c'

/-- Strip leading and trailing Python whitespace. -/
def stripWs (l : List Char) : List Char :=
  ((l.dropWhile pyWs).reverse.dropWhile pyWs).reverse

/-- Tail of a Python integer literal after its first digit: digits with
single underscores allowed between digits. -/
def pyDigitsTail : List Char → Bool
  | [] => true
  | c :: r =>
    if c = '_' then
      match r with
      | [] => false
      | d :: r' => d.isDigit && pyDigitsTail r'
    else c.isDigit && pyDigitsTail r

/-- A valid unsigned Python integer literal body: nonempty, starts with a
digit, underscores only between digits. -/
def pyDigitsOk : List Char → Bool
  | [] => false
  | c :: r => c.isDigit && pyDigitsTail r

/-- One step of decimal accumulation. -/
def decStep (a : Nat) (c : Char) : Nat := a * 10 + (c.toNat - 48)

/-- Decimal value of a digit run (underscores ignored). -/
def digitsVal (l : List Char) : Nat :=
  (l.filter (fun c => c ≠ '_')).foldl decStep 0

/-- Python `int(s)` for a string: returns `none` exactly when Python raises
`ValueError`.  Modelled for the ASCII range. -/
def pyIntOfChars (l : List Char) : Option Int :=
  match stripWs l with
  | [] => none
  | c :: r =>
    if c = '+' then
      if pyDigitsOk r then some (digitsVal r) else none
    else if c = '-' then
      if pyDigitsOk r then some (-(digitsVal r : Int)) else none
    else
      if pyDigitsOk (c :: r) then some (digitsVal (c :: r)) else none

/-- Python `int(s)` on a Lean string. -/
def pyInt (s : String) : Option Int :=
  pyIntOfChars s.data

/-! Section: Decimal formatting: Python `f"INV-\x7bnumber:04d\x7d"` -/

/-- ASCII digit character for a value below 10. -/
def digitChar (d : Nat) : Char := Char.ofNat (48 + d)

/-- Fuel-driven digit extraction (structural recursion so that concrete
values reduce inside the kernel).  The fuel is always sufficient when it
exceeds the number being printed. -/
def natDigitsAux : Nat → Nat → List Char
  | 0, _ => []
  | fuel + 1, n =>
    if n < 10 then [digitChar n]
    else natDigitsAux fuel (n / 10) ++ [digitChar (n % 10)]

/-- Decimal digits of a natural number, most significant first. -/
def natDigits (n : Nat) : List Char := natDigitsAux (n + 1) n

/-- Python `format(n, "04d")`: zero-pad to overall width 4, sign first. -/
def pyFmt04d (n : Int) : List Char :=
  let mag := natDigits n.natAbs
  if n < 0 then '-' :: (List.replicate (4 - 1 - mag.length) '0' ++ mag)
  else List.replicate (4 - mag.length) '0' ++ mag

/-- The invoice number string for a given sequence value. -/
def fmtInvNo (n : Int) : String :=
  String.mk ('I' :: 'N' :: 'V' :: '-' :: pyFmt04d n)

/-! Section: Python `str.split` with a single-character separator -/

/-- Python `s.split(sep)` for a one-character separator: always returns a
nonempty list of (possibly empty) groups. -/
def splitOnChar (sep : Char) : List Char → List (List Char)
  | [] => [[]]
  | c :: r =>
    let rest := splitOnChar sep r
    if c = sep then [] :: rest
    else
      match rest with
      | [] => [[c]]
      | g :: gs => (c :: g) :: gs

/-! Section: IEEE-754 double precision model (Python floats, SQLite REAL)

Floating-point values are modelled as dyadic numbers: an integer mantissa
together with a power-of-two exponent, denoting `m * 2 ^ p`.  A value is a
representable double when its mantissa fits in 53 bits; `normRound`
implements IEEE round-to-nearest, ties-to-even, which is exactly the
rounding Python applies to the product of two floats.  The model covers
the normal range; overflow to infinity and subnormal underflow are outside
the magnitudes this application manipulates and are not modelled. -/

/-- Fuel-driven bit length: `natBitsAux fuel n` is the number of binary
digits of `n`, provided `fuel > n`. -/
def natBitsAux : Nat → Nat → Nat
  | 0, _ => 0
  | fuel + 1, n => if n = 0 then 0 else natBitsAux fuel (n / 2) + 1

/-- Number of binary digits of a natural number (`0` for `0`). -/
def natBits (n : Nat) : Nat := natBitsAux (n + 1) n

/-- A dyadic number `m * 2 ^ p`: the exact value of a binary float. -/
structure Dyadic where
  m : Int
  p : Int
deriving DecidableEq, Repr

/-- The exact rational value denoted by a dyadic number. -/
def Dyadic.toQ (x : Dyadic) : ℚ := (x.m : ℚ) * (2 : ℚ) ^ x.p

/-- A dyadic number is a representable double when its mantissa fits in
53 bits (normal-range model). -/
def Dyadic.isDouble (x : Dyadic) : Prop := natBits x.m.natAbs ≤ 53

instance (x : Dyadic) : Decidable x.isDouble := by
  unfold Dyadic.isDouble; infer_instance

/-- Round `m * 2 ^ p` to the nearest double: keep the top 53 mantissa
bits, rounding to nearest with ties to even. -/
def normRound (m : Int) (p : Int) : Dyadic :=
  if m = 0 then ⟨0, 0⟩
  else
    let a := m.natAbs
    let bits := natBits a
    if bits ≤ 53 then ⟨m, p⟩
    else
      let k := bits - 53
      let q := a / 2 ^ k
      let r2 := 2 * (a % 2 ^ k)
      let half := 2 ^ k
      let q' := if r2 < half then q else if half < r2 then q + 1
                else if q % 2 = 0 then q else q + 1
      ⟨if m < 0 then -(q' : Int) else (q' : Int), p + k⟩

/-- Python float multiplication on doubles: the exact product, rounded. -/
def dyMul (x y : Dyadic) : Dyadic := normRound (x.m * y.m) (x.p + y.p)

/-- Python conversion of an `int` to a float (exact below 2^53). -/
def dyOfInt (n : Int) : Dyadic := normRound n 0

/-- Shift a mantissa to a common exponent base. -/
def Dyadic.shifted (x : Dyadic) (base : Int) : Int :=
  x.m * 2 ^ (x.p - base).toNat

/-- Decidable equality of the denoted values (not of representations). -/
def dyEq (x y : Dyadic) : Bool :=
  x.shifted (min x.p y.p) == y.shifted (min x.p y.p)

/-! Section: SQLite `LIKE` matching (default: ASCII-case-insensitive) -/

/-- SQLite's default case folding for `LIKE`: ASCII upper to lower. -/
def foldAscii (c : Char) : Char :=
  if 'A' ≤ c ∧ c ≤ 'Z' then Char.ofNat (c.toNat + 32) else c

/-- SQLite `LIKE` pattern matching: `%` matches any sequence, `_` any
single character, other characters match up to ASCII case. -/
def likeMatch : List Char → List Char → Bool
  | [], s => s.isEmpty
  | c :: p, s =>
    if c = '%' then
      likeMatch p s ||
        (match s with
         | [] => false
         | _ :: s' => likeMatch (c :: p) s')
    else
      match s with
      | [] => false
      | d :: s' => (if c = '_' then true else foldAscii c = foldAscii d) && likeMatch p s'
  termination_by p s => (p.length, s.length)

/-- The pattern the application builds for a status filter `v`:
`"%" + v + "%"`. -/
def likePat (v : String) : List Char := '%' :: (v.data ++ ['%'])

/-! Section: Data model

Fields restricted to those the workflow engine reads or writes.  Driver,
customer and supplier master records only matter through their primary
keys (`choose_from_table` / `record_exists` checks), so the reference
tables are modelled as lists of keys.  `Rate`, `TotalAmount` and `Amount`
are SQLite REAL columns fed from Python floats, hence `Dyadic`. -/

/-- A `tblFleet` row (the engine reads `FleetID` and `Ownership` only). -/
structure Fleet where
  fleetId : String
  ownership : String
deriving DecidableEq, Repr

/-- A `tblHire` row. -/
structure Hire where
  hireId : Int
  fleetId : String
  driverId : Int
  customerId : Int
  supplierId : Option Int
  hireType : String
  startDate : String
  endDate : Option String
  rate : Dyadic
  quantity : Int
  total : Dyadic
  status : String
deriving DecidableEq, Repr

/-- A `tblCustomerInvoice` row. -/
structure Invoice where
  invoiceId : Int
  invoiceNo : String
  hireId : Int
  customerId : Int
  invoiceDate : String
  amount : Dyadic
  paymentStatus : String
deriving DecidableEq, Repr

/-- A `tblSupplierPayment` row. -/
structure SupplierPayment where
  paymentId : Int
  supplierId : Int
  hireId : Int
  paymentDate : String
  amount : Dyadic
  paymentStatus : String
deriving DecidableEq, Repr

/-- The persisted database state.  Row lists are kept in insertion order,
which coincides with increasing AUTOINCREMENT primary keys (the engine
never deletes hires, invoices or payments), so `ORDER BY InvoiceID DESC
LIMIT 1` reads the last list element.  The `next…` counters model the
AUTOINCREMENT sequences. -/
structure Store where
  fleets : List Fleet
  drivers : List Int
  customers : List Int
  suppliers : List Int
  hires : List Hire
  invoices : List Invoice
  payments : List SupplierPayment
  nextHireId : Int
  nextInvoiceId : Int
  nextPaymentId : Int
deriving DecidableEq, Repr

/-- Entities a `NotFound`-style failure can refer to. -/
inductive Entity where
  | fleet | driver | customer | supplier | hire | invoice | payment
deriving DecidableEq, Repr

/-- Business-rule violations distinguished by the engine.  The source
signals each by printing a message and returning without writing (or, for
`invalidHireType`, by the INSERT failing its CHECK constraint); the error
names follow the abstract taxonomy. -/
inductive VReason where
  | supplierRequired
  | invalidSupplierInput
  | invalidHireType
  | hireNotCompleted
  | noSupplierOnHire
deriving DecidableEq, Repr

/-- Abstract outcome of a failed operation. -/
inductive AppError where
  | notFound : Entity → AppError
  | validation : VReason → AppError
  | conflict : Entity → AppError
deriving DecidableEq, Repr

instance {ε α : Type} [DecidableEq ε] [DecidableEq α] :
    DecidableEq (Except ε α) := fun x y =>
  match x, y with
  | .ok a, .ok b =>
    if h : a = b then .isTrue (by rw [h])
    else .isFalse (fun he => h (by injection he))
  | .error a, .error b =>
    if h : a = b then .isTrue (by rw [h])
    else .isFalse (fun he => h (by injection he))
  | .ok _, .error _ => .isFalse (fun he => by injection he)
  | .error _, .ok _ => .isFalse (fun he => by injection he)

/-! Section: Engine operations -/

/-- `choose_from_table`: lists the rows of a reference table, parses the
operator's choice with `int(...)` and checks `record_exists`.  Returns
`none` (the caller aborts) when the table is empty, the input is not an
integer, or the id does not exist. -/
def chooseFromTable (ids : List Int) (input : String) : Option Int :=
  if ids.isEmpty then none
  else
    match pyInt input with
    | none => none
    | some n => if ids.contains n then some n else none

/-- The four `HireType` values of the `tblHire` CHECK constraint. -/
def hireTypes : List String := ["Daily", "Weekly", "Monthly", "Trip"]

/-- The supplier-resolution step of `add_hire`.  When the fleet is
Rented-in the supplier is chosen via `choose_from_table` (abort when that
yields `none`); otherwise a free-form input is accepted when empty or
parseable as an integer — with no existence check. -/
def resolveSupplier (st : Store) (requireSupplier : Bool) (suppIn : String) :
    Except AppError (Option Int) :=
  if requireSupplier then
    match chooseFromTable st.suppliers suppIn with
    | none => .error (.validation .supplierRequired)
    | some sid => .ok (some sid)
  else
    if suppIn = "" then .ok none
    else
      match pyInt suppIn with
      | none => .error (.validation .invalidSupplierInput)
      | some sid => .ok (some sid)

/-- The hire row `add_hire` builds for the INSERT: total computed as
`rate * quantity` in Python float arithmetic, status initialised Open,
empty end date stored as NULL, id drawn from the AUTOINCREMENT counter. -/
def mkHire (st : Store) (fleetId : String) (driverId customerId : Int)
    (supplierId : Option Int) (hireType startDate endDate : String)
    (rate : Dyadic) (quantity : Int) : Hire :=
  { hireId := st.nextHireId, fleetId := fleetId,
    driverId := driverId, customerId := customerId,
    supplierId := supplierId, hireType := hireType,
    startDate := startDate,
    endDate := if endDate = "" then none else some endDate,
    rate := rate, quantity := quantity,
    total := dyMul rate (dyOfInt quantity), status := "Open" }

/-- `add_hire`: validations in source order (fleet existence, driver and
customer via `choose_from_table`, ownership-driven supplier resolution),
then the INSERT, whose `CHECK(HireType IN (...))` constraint rejects any
hire type outside the enumeration.  Returns the updated store and the
created row, or the unchanged store and the failure. -/
def addHire (st : Store) (fleetId driverIn custIn suppIn : String)
    (hireType startDate endDate : String) (rate : Dyadic) (quantity : Int) :
    Store × Except AppError Hire :=
  match st.fleets.find? (fun f => f.fleetId == fleetId) with
  | none => (st, .error (.notFound .fleet))
  | some f =>
    match chooseFromTable st.drivers driverIn with
    | none => (st, .error (.notFound .driver))
    | some driverId =>
      match chooseFromTable st.customers custIn with
      | none => (st, .error (.notFound .customer))
      | some customerId =>
        match resolveSupplier st (f.ownership == "Rented-in") suppIn with
        | .error e => (st, .error e)
        | .ok supplierId =>
          if hireTypes.contains hireType then
            let h : Hire := mkHire st fleetId driverId customerId supplierId
              hireType startDate endDate rate quantity
            ({ st with hires := st.hires ++ [h],
                       nextHireId := st.nextHireId + 1 }, .ok h)
          else (st, .error (.validation .invalidHireType))

/-- `update_hire_status`: `record_exists` check, then an unguarded UPDATE
of the status field (any value, any transition). -/
def updateHireStatus (st : Store) (hireId : Int) (newStatus : String) :
    Store × Except AppError Unit :=
  if st.hires.any (fun h => h.hireId == hireId) then
    ({ st with hires := st.hires.map (fun h =>
        if h.hireId == hireId then { h with status := newStatus } else h) },
      .ok ())
  else (st, .error (.notFound .hire))

/-- `search_hires`: `SELECT ... FROM tblHire WHERE Status LIKE '%v%'`.
A pure read returning the matching rows in table order. -/
def searchHires (st : Store) (v : String) : List Hire :=
  st.hires.filter (fun h => likeMatch (likePat v) h.status.data)

/-- `generate_invoice_no`: reads the most recently created invoice (the
row with the largest `InvoiceID`, i.e. the last inserted), takes what
follows the last `-` in its number, parses it with `int(...)` (falling
back to `1` on `ValueError` minus the increment, i.e. the generator
yields `INV-0001`), increments, and formats with `04d` zero-padding. -/
def generateInvoiceNo (st : Store) : String :=
  match st.invoices.getLast? with
  | none => "INV-0001"
  | some inv =>
    let suffix := (splitOnChar '-' inv.invoiceNo.data).getLastD []
    let number : Int :=
      match pyIntOfChars suffix with
      | some k => k + 1
      | none => 1
    String.mk ('I' :: 'N' :: 'V' :: '-' :: pyFmt04d number)

/-- `create_invoice_from_hire`: enumerates the hires with status
Completed, validates the selected id against that list (an unknown or
non-Completed hire aborts), allocates the next invoice number and inserts
the invoice with the hire's total and customer, payment status Unpaid.
The `InvoiceNo UNIQUE` constraint would reject a duplicate number. -/
def createInvoiceFromHire (st : Store) (hireId : Int) (invoiceDate : String) :
    Store × Except AppError Invoice :=
  let completed := st.hires.filter (fun h => h.status == "Completed")
  if completed.isEmpty then (st, .error (.validation .hireNotCompleted))
  else
    match completed.find? (fun h => h.hireId == hireId) with
    | none => (st, .error (.validation .hireNotCompleted))
    | some h =>
      let no := generateInvoiceNo st
      if st.invoices.any (fun i => i.invoiceNo == no) then
        (st, .error (.conflict .invoice))
      else
        let inv : Invoice :=
          { invoiceId := st.nextInvoiceId, invoiceNo := no, hireId := hireId,
            customerId := h.customerId, invoiceDate := invoiceDate,
            amount := h.total, paymentStatus := "Unpaid" }
        ({ st with invoices := st.invoices ++ [inv],
                   nextInvoiceId := st.nextInvoiceId + 1 }, .ok inv)

/-- `add_supplier_payment`: looks up the hire, reads its `SupplierID`,
and rejects with the no-supplier message when that value is falsy in
Python — which is the case both for NULL and for the integer `0`.
Otherwise inserts a payment whose supplier is the hire's supplier,
with status Pending. -/
def addSupplierPayment (st : Store) (hireId : Int) (paymentDate : String)
    (amount : Dyadic) : Store × Except AppError SupplierPayment :=
  match st.hires.find? (fun h => h.hireId == hireId) with
  | none => (st, .error (.notFound .hire))
  | some h =>
    let falsy := match h.supplierId with
      | none => true
      | some sid => sid == 0
    if falsy then (st, .error (.validation .noSupplierOnHire))
    else
      let sid := h.supplierId.getD 0
      let pay : SupplierPayment :=
        { paymentId := st.nextPaymentId, supplierId := sid, hireId := hireId,
          paymentDate := paymentDate, amount := amount,
          paymentStatus := "Pending" }
      ({ st with payments := st.payments ++ [pay],
                 nextPaymentId := st.nextPaymentId + 1 }, .ok pay)

/-- Fold a sequence of `create_invoice_from_hire` calls (hire id and
invoice date per call) over the store, keeping the store of each outcome
(failed calls leave it unchanged). -/
def applyCreates (st : Store) (ops : List (Int × String)) : Store :=
  ops.foldl (fun s op => (createInvoiceFromHire s op.1 op.2).1) st

/-- The invoice number the canonical sequence assigns at 0-based index `k`. -/
def seqInvNo (k : Nat) : String := fmtInvNo (Int.ofNat k + 1)

/-- The invoice numbers of a store are the canonical sequence
`INV-0001, INV-0002, …` in creation order. -/
def invNosCanonical (st : Store) : Prop :=
  st.invoices.map (fun i => i.invoiceNo)
    = (List.range st.invoices.length).map seqInvNo

/-! Section: Concrete states used by witnesses and counterexamples -/

/-- An empty database, as after schema creation. -/
def baseStore : Store :=
  { fleets := [], drivers := [], customers := [], suppliers := [],
    hires := [], invoices := [], payments := [],
    nextHireId := 1, nextInvoiceId := 1, nextPaymentId := 1 }

/-- A representative hire row. -/
def sampleHire : Hire :=
  { hireId := 1, fleetId := "F1", driverId := 1, customerId := 1,
    supplierId := some 7, hireType := "Daily", startDate := "2024-01-01",
    endDate := none, rate := ⟨100, 0⟩, quantity := 5, total := ⟨500, 0⟩,
    status := "Open" }

/-- Reference data with a Rented-in fleet and no suppliers on file. -/
def rentedStore : Store :=
  { baseStore with fleets := [⟨"F1", "Rented-in"⟩],
                   drivers := [1], customers := [1] }

/-- Reference data with an Owned fleet; supplier 99 is not on file. -/
def ownedStore : Store :=
  { baseStore with fleets := [⟨"F1", "Owned"⟩],
                   drivers := [1], customers := [1] }

/-- A store holding one Completed hire and no invoices yet. -/
def completedHireStore : Store :=
  { baseStore with hires := [{ sampleHire with status := "Completed" }] }

/-- A store holding one Open (never completed) hire. -/
def openHireStore : Store :=
  { baseStore with hires := [sampleHire] }

/-- A store whose only hire has the persisted supplier id `0`
(reachable through the Owned branch of `add_hire` with input `0`). -/
def zeroSupplierStore : Store :=
  { baseStore with hires := [{ sampleHire with supplierId := some 0 }] }

/-- A store whose only hire has a NULL supplier. -/
def noSupplierStore : Store :=
  { baseStore with hires := [{ sampleHire with supplierId := none }] }

/-- A store whose latest invoice number has an unparseable suffix. -/
def corruptInvoiceStore : Store :=
  { baseStore with
      invoices := [{ invoiceId := 1, invoiceNo := "INV-ABCD", hireId := 1,
                     customerId := 1, invoiceDate := "2024-01-01",
                     amount := ⟨500, 0⟩, paymentStatus := "Unpaid" }],
      nextInvoiceId := 2 }

/-- Two hires whose statuses differ only in letter case relevance. -/
def statusSearchStore : Store :=
  { baseStore with
      hires := [sampleHire,
                { sampleHire with hireId := 2, status := "Completed" }] }

/-- The Python double closest to the decimal literal `0.1`. -/
def dq01 : Dyadic := ⟨7205759403792794, -56⟩

/-! Section: Lemma layer: characters, parsing and formatting -/

theorem digit_ne (c : Char) (h : c.isDigit = true) :
    c ≠ '_' ∧ c ≠ '+' ∧ c ≠ '-' := by
  refine ⟨?_, ?_, ?_⟩ <;> intro he <;> subst he <;> exact absurd h (by decide)

theorem ne_char_of_digit (c : Char) (h : c.isDigit = true) (d : Char)
    (hd : d.isDigit = false) : (c = d : Bool) = false := by
  by_cases hc : c = d
  · subst hc
    rw [h] at hd
    cases hd
  · simp [hc]

theorem digit_not_ws (c : Char) (h : c.isDigit = true) : pyWs c = false := by
  unfold pyWs
  rw [ne_char_of_digit c h ' ' (by decide), ne_char_of_digit c h '\t' (by decide),
    ne_char_of_digit c h '\n' (by decide), ne_char_of_digit c h '\r' (by decide),
    ne_char_of_digit c h '\x0b' (by decide), ne_char_of_digit c h '\x0c' (by decide)]
  rfl

theorem dropWhile_pyWs_eq_self (l : List Char)
    (h : ∀ c ∈ l, pyWs c = false) : l.dropWhile pyWs = l := by
  cases l with
  | nil => rfl
  | cons c r =>
    rw [List.dropWhile_cons, h c (by simp)]
    simp only [Bool.false_eq_true, if_false]

theorem stripWs_digits (l : List Char) (h : ∀ c ∈ l, c.isDigit = true) :
    stripWs l = l := by
  have h1 : ∀ c ∈ l, pyWs c = false := fun c hc => digit_not_ws c (h c hc)
  unfold stripWs
  rw [dropWhile_pyWs_eq_self l h1,
    dropWhile_pyWs_eq_self l.reverse
      (fun c hc => h1 c (List.mem_reverse.mp hc)),
    List.reverse_reverse]

theorem pyDigitsTail_digits (l : List Char)
    (h : ∀ c ∈ l, c.isDigit = true) : pyDigitsTail l = true := by
  induction l with
  | nil => rfl
  | cons c r ih =>
    have hc := h c (by simp)
    conv_lhs => unfold pyDigitsTail
    rw [if_neg (digit_ne c hc).1, hc, Bool.true_and]
    exact ih (fun d hd => h d (by simp [hd]))

theorem pyDigitsOk_digits (l : List Char)
    (h : ∀ c ∈ l, c.isDigit = true) (hne : l ≠ []) : pyDigitsOk l = true := by
  cases l with
  | nil => cases hne rfl
  | cons c r =>
    simp only [pyDigitsOk, h c (by simp), Bool.true_and]
    exact pyDigitsTail_digits r (fun d hd => h d (by simp [hd]))

theorem filter_ne_underscore (l : List Char)
    (h : ∀ c ∈ l, c.isDigit = true) :
    l.filter (fun c => c ≠ '_') = l := by
  apply List.filter_eq_self.mpr
  intro c hc
  simp [(digit_ne c (h c hc)).1]

theorem pyIntOfChars_digits (l : List Char)
    (h : ∀ c ∈ l, c.isDigit = true) (hne : l ≠ []) :
    pyIntOfChars l = some (digitsVal l : Int) := by
  unfold pyIntOfChars
  rw [stripWs_digits l h]
  cases l with
  | nil => cases hne rfl
  | cons c r =>
    have hc := h c (by simp)
    have h2 := digit_ne c hc
    simp only [if_neg h2.2.1, if_neg h2.2.2, pyDigitsOk_digits _ h hne, if_pos]

theorem foldl_decStep_replicate (k a : Nat) :
    (List.replicate k '0').foldl decStep a = a * 10 ^ k := by
  induction k generalizing a with
  | zero => simp
  | succ k ih =>
    rw [List.replicate_succ, List.foldl_cons, ih]
    have h0 : decStep a '0' = a * 10 := by
      unfold decStep
      norm_num [show '0'.toNat = 48 from rfl]
    rw [h0, pow_succ]
    ring

theorem digitChar_isDigit (d : Nat) (h : d < 10) :
    (digitChar d).isDigit = true := by
  interval_cases d <;> decide

theorem digitChar_toNat (d : Nat) (h : d < 10) :
    (digitChar d).toNat - 48 = d := by
  interval_cases d <;> decide

theorem natDigitsAux_congr :
    ∀ f1 f2 n : Nat, n < f1 → n < f2 →
      natDigitsAux f1 n = natDigitsAux f2 n := by
  intro f1
  induction f1 with
  | zero => intro f2 n h1 _; omega
  | succ f ih =>
    intro f2 n h1 h2
    cases f2 with
    | zero => omega
    | succ g =>
      simp only [natDigitsAux]
      by_cases h10 : n < 10
      · simp [h10]
      · have hd := Nat.div_lt_self (show 0 < n by omega) (by norm_num : 1 < 10)
        simp only [h10, if_false]
        rw [ih g (n / 10) (by omega) (by omega)]

theorem natDigits_unfold (n : Nat) :
    natDigits n =
      if n < 10 then [digitChar n]
      else natDigits (n / 10) ++ [digitChar (n % 10)] := by
  by_cases h10 : n < 10
  · unfold natDigits
    simp [natDigitsAux, h10]
  · have hd := Nat.div_lt_self (show 0 < n by omega) (by norm_num : 1 < 10)
    rw [if_neg h10]
    show natDigitsAux (n + 1) n = _
    rw [natDigitsAux, if_neg h10]
    congr 1
    exact natDigitsAux_congr n (n / 10 + 1) (n / 10) (by omega) (by omega)

theorem natDigits_digits (n : Nat) :
    ∀ c ∈ natDigits n, c.isDigit = true := by
  induction n using Nat.strong_induction_on with
  | _ n ih =>
    rw [natDigits_unfold]
    by_cases h10 : n < 10
    · simp only [h10, if_true, List.mem_singleton]
      intro c hc
      subst hc
      exact digitChar_isDigit n h10
    · have hd := Nat.div_lt_self (show 0 < n by omega) (by norm_num : 1 < 10)
      simp only [h10, if_false, List.mem_append, List.mem_singleton]
      intro c hc
      rcases hc with hc | hc
      · exact ih (n / 10) hd c hc
      · subst hc
        exact digitChar_isDigit (n % 10) (Nat.mod_lt n (by norm_num))

theorem natDigits_ne_nil (n : Nat) : natDigits n ≠ [] := by
  rw [natDigits_unfold]
  split <;> simp

theorem natDigits_foldl (n : Nat) :
    ∀ a, (natDigits n).foldl decStep a = a * 10 ^ (natDigits n).length + n := by
  induction n using Nat.strong_induction_on with
  | _ n ih =>
    intro a
    rw [natDigits_unfold]
    by_cases h10 : n < 10
    · simp only [h10, if_true, List.foldl_cons, List.foldl_nil,
        List.length_singleton]
      unfold decStep
      rw [digitChar_toNat n h10]
      ring
    · have hd := Nat.div_lt_self (show 0 < n by omega) (by norm_num : 1 < 10)
      simp only [h10, if_false, List.foldl_append, List.length_append,
        List.foldl_cons, List.foldl_nil, List.length_singleton]
      rw [ih (n / 10) hd a]
      unfold decStep
      rw [digitChar_toNat (n % 10) (Nat.mod_lt n (by norm_num)), pow_succ]
      set L := 10 ^ (natDigits (n / 10)).length
      ring_nf
      omega

theorem digitsVal_pad (k n : Nat) :
    digitsVal (List.replicate k '0' ++ natDigits n) = n := by
  unfold digitsVal
  rw [filter_ne_underscore]
  · rw [List.foldl_append, foldl_decStep_replicate, natDigits_foldl]
    simp
  · intro c hc
    rcases List.mem_append.mp hc with hc | hc
    · rw [List.eq_of_mem_replicate hc]; decide
    · exact natDigits_digits n c hc

theorem pyFmt04d_pos (n : Int) (h : 1 ≤ n) :
    pyFmt04d n = List.replicate (4 - (natDigits n.natAbs).length) '0'
      ++ natDigits n.natAbs := by
  unfold pyFmt04d
  rw [if_neg (by omega : ¬ n < 0)]

theorem pyFmt04d_digits (n : Int) (h : 1 ≤ n) :
    ∀ c ∈ pyFmt04d n, c.isDigit = true := by
  rw [pyFmt04d_pos n h]
  intro c hc
  rcases List.mem_append.mp hc with hc | hc
  · rw [List.eq_of_mem_replicate hc]; decide
  · exact natDigits_digits _ c hc

theorem pyFmt04d_ne_nil (n : Int) (h : 1 ≤ n) : pyFmt04d n ≠ [] := by
  rw [pyFmt04d_pos n h]
  simp [natDigits_ne_nil]

theorem parse_pyFmt04d (n : Int) (h : 1 ≤ n) :
    pyIntOfChars (pyFmt04d n) = some n := by
  rw [pyIntOfChars_digits _ (pyFmt04d_digits n h) (pyFmt04d_ne_nil n h)]
  rw [pyFmt04d_pos n h, digitsVal_pad]
  rw [Int.natAbs_of_nonneg (by omega)]

theorem splitOnChar_no_sep (sep : Char) (l : List Char)
    (h : ∀ c ∈ l, c ≠ sep) : splitOnChar sep l = [l] := by
  induction l with
  | nil => rfl
  | cons c r ih =>
    simp only [splitOnChar, if_neg (h c (by simp))]
    rw [ih (fun d hd => h d (by simp [hd]))]

theorem splitOnChar_inv (pad : List Char) (h : ∀ c ∈ pad, c ≠ '-') :
    splitOnChar '-' ('I' :: 'N' :: 'V' :: '-' :: pad)
      = [['I', 'N', 'V'], pad] := by
  have hp : splitOnChar '-' pad = [pad] := splitOnChar_no_sep '-' pad h
  simp [splitOnChar, hp]

theorem generateInvoiceNo_of_last (st : Store) (inv : Invoice) (n : Int)
    (h1 : 1 ≤ n) (hlast : st.invoices.getLast? = some inv)
    (hno : inv.invoiceNo = fmtInvNo n) :
    generateInvoiceNo st = fmtInvNo (n + 1) := by
  unfold generateInvoiceNo
  rw [hlast]
  simp only [hno]
  have hdata : (fmtInvNo n).data = 'I' :: 'N' :: 'V' :: '-' :: pyFmt04d n := rfl
  rw [hdata,
    splitOnChar_inv _ (fun c hc => (digit_ne c (pyFmt04d_digits n h1 c hc)).2.2)]
  rw [show ([['I', 'N', 'V'], pyFmt04d n]).getLastD ([] : List Char)
        = pyFmt04d n from rfl]
  rw [parse_pyFmt04d n h1]
  rfl

theorem fmtInvNo_inj (a b : Int) (ha : 1 ≤ a) (hb : 1 ≤ b)
    (h : fmtInvNo a = fmtInvNo b) : a = b := by
  have hdata := congrArg String.data h
  simp only [fmtInvNo, List.cons.injEq, true_and] at hdata
  have hparse := congrArg pyIntOfChars hdata
  rw [parse_pyFmt04d a ha, parse_pyFmt04d b hb] at hparse
  exact Option.some.inj hparse

/-! Section: Lemma layer: the invoice number sequence -/

theorem one_le_ofNat_succ (m : Nat) : 1 ≤ Int.ofNat m + 1 := by
  have h0 : (0 : Int) ≤ Int.ofNat m := Int.ofNat_le.mpr (Nat.zero_le m)
  omega

theorem canonical_gen (st : Store) (h : invNosCanonical st) :
    generateInvoiceNo st = seqInvNo st.invoices.length := by
  cases hl : st.invoices.getLast? with
  | none =>
    have hnil : st.invoices = [] := List.getLast?_eq_none_iff.mp hl
    unfold generateInvoiceNo seqInvNo
    rw [hl, hnil]
    decide
  | some inv =>
    have hne : st.invoices ≠ [] := fun he => by rw [he] at hl; cases hl
    obtain ⟨m, hm⟩ : ∃ m, st.invoices.length = m + 1 := by
      cases hi : st.invoices with
      | nil => exact absurd hi hne
      | cons a l => exact ⟨l.length, rfl⟩
    have hmap : (st.invoices.map (fun i => i.invoiceNo)).getLast?
        = ((List.range st.invoices.length).map seqInvNo).getLast? := by rw [h]
    rw [List.getLast?_map, List.getLast?_map, hl, hm, List.range_succ,
      List.getLast?_concat] at hmap
    simp only [Option.map_some'] at hmap
    have hno : inv.invoiceNo = fmtInvNo (Int.ofNat m + 1) :=
      Option.some.inj hmap
    rw [generateInvoiceNo_of_last st inv (Int.ofNat m + 1)
      (one_le_ofNat_succ m) hl hno, hm]
    unfold seqInvNo
    congr 1

theorem canonical_create (st : Store) (hid : Int) (date : String)
    (h : invNosCanonical st) :
    invNosCanonical (createInvoiceFromHire st hid date).1 := by
  simp only [createInvoiceFromHire]
  split
  · exact h
  · split
    · exact h
    · split
      · exact h
      · unfold invNosCanonical at h ⊢
        simp only [List.map_append, List.length_append, List.map_cons,
          List.map_nil, List.length_cons, List.length_nil]
        rw [canonical_gen st h, h]
        rw [show st.invoices.length + (0 + 1) = st.invoices.length + 1 by omega]
        rw [List.range_succ, List.map_append]
        rfl

theorem seqInvNo_injective : Function.Injective seqInvNo := by
  intro a b hab
  unfold seqInvNo at hab
  exact Int.ofNat.inj (by
    have := fmtInvNo_inj (Int.ofNat a + 1) (Int.ofNat b + 1)
      (one_le_ofNat_succ a) (one_le_ofNat_succ b) hab
    omega)

theorem canonical_applyCreates (ops : List (Int × String)) :
    ∀ st : Store, invNosCanonical st → invNosCanonical (applyCreates st ops) := by
  induction ops with
  | nil => intro st h; exact h
  | cons op rest ih =>
    intro st h
    exact ih (createInvoiceFromHire st op.1 op.2).1 (canonical_create st op.1 op.2 h)

/-- C1: starting from an empty invoice table, every sequence of
`create_invoice_from_hire` calls leaves the invoice table holding the
numbers `INV-0001, INV-0002, INV-0003, …` in creation order (the k-th
created invoice carries `fmtInvNo k`, the zero-padded increment of its
predecessor's parsed suffix), and these numbers are pairwise distinct. -/
theorem invoice_numbers_sequential (st : Store) (ops : List (Int × String))
    (h0 : st.invoices = []) :
    invNosCanonical (applyCreates st ops)
      ∧ ((applyCreates st ops).invoices.map (fun i => i.invoiceNo)).Nodup := by
  have hbase : invNosCanonical st := by
    unfold invNosCanonical
    rw [h0]
    rfl
  have hc := canonical_applyCreates ops st hbase
  refine ⟨hc, ?_⟩
  rw [hc]
  exact List.Nodup.map seqInvNo_injective (List.nodup_range _)

/-- Witness for C1 at a concrete store: three invoice creations from an
empty invoice table yield the canonical, duplicate-free numbering. -/
theorem invoice_numbers_sequential_witness :
    invNosCanonical (applyCreates completedHireStore
        [(1, "2024-01-01"), (1, "2024-01-02"), (1, "2024-01-03")])
      ∧ ((applyCreates completedHireStore
          [(1, "2024-01-01"), (1, "2024-01-02"), (1, "2024-01-03")]).invoices.map
            (fun i => i.invoiceNo)).Nodup :=
  invoice_numbers_sequential completedHireStore
    [(1, "2024-01-01"), (1, "2024-01-02"), (1, "2024-01-03")] rfl

/-! Section: Lemma layer: `add_hire` control flow -/

theorem addHire_ok
    (st : Store) (fleetId driverIn custIn suppIn hireType startDate endDate : String)
    (rate : Dyadic) (quantity : Int) (f : Fleet) (dId cId : Int) (sid : Option Int)
    (hf : st.fleets.find? (fun x => x.fleetId == fleetId) = some f)
    (hd : chooseFromTable st.drivers driverIn = some dId)
    (hc : chooseFromTable st.customers custIn = some cId)
    (hs : resolveSupplier st (f.ownership == "Rented-in") suppIn = .ok sid)
    (ht : hireTypes.contains hireType = true) :
    addHire st fleetId driverIn custIn suppIn hireType startDate endDate rate quantity
      = ({ st with
            hires := st.hires ++
              [mkHire st fleetId dId cId sid hireType startDate endDate rate quantity],
            nextHireId := st.nextHireId + 1 },
         .ok (mkHire st fleetId dId cId sid hireType startDate endDate rate quantity)) := by
  unfold addHire
  simp only [hf, hd, hc, hs, ht, if_true]

theorem addHire_supplier_error
    (st : Store) (fleetId driverIn custIn suppIn hireType startDate endDate : String)
    (rate : Dyadic) (quantity : Int) (f : Fleet) (dId cId : Int) (e : AppError)
    (hf : st.fleets.find? (fun x => x.fleetId == fleetId) = some f)
    (hd : chooseFromTable st.drivers driverIn = some dId)
    (hc : chooseFromTable st.customers custIn = some cId)
    (hs : resolveSupplier st (f.ownership == "Rented-in") suppIn = .error e) :
    addHire st fleetId driverIn custIn suppIn hireType startDate endDate rate quantity
      = (st, .error e) := by
  unfold addHire
  simp only [hf, hd, hc, hs]

/-! Section: Lemma layer: dyadic values -/

theorem Dyadic.toQ_shifted_base (x : Dyadic) (b : Int) (hb : b ≤ x.p) :
    x.toQ = ((x.shifted b : Int) : ℚ) * (2 : ℚ) ^ b := by
  unfold Dyadic.toQ Dyadic.shifted
  push_cast
  rw [mul_assoc]
  congr 1
  rw [← zpow_natCast (2 : ℚ) (x.p - b).toNat, Int.toNat_of_nonneg (by omega),
    ← zpow_add₀ (by norm_num : (2 : ℚ) ≠ 0)]
  congr 1
  omega

theorem dyEq_iff_toQ (x y : Dyadic) : dyEq x y = true ↔ x.toQ = y.toQ := by
  unfold dyEq
  rw [beq_iff_eq]
  constructor
  · intro h
    rw [Dyadic.toQ_shifted_base x (min x.p y.p) (min_le_left _ _),
      Dyadic.toQ_shifted_base y (min x.p y.p) (min_le_right _ _), h]
  · intro h
    have h2 : ((x.shifted (min x.p y.p) : Int) : ℚ) * (2 : ℚ) ^ min x.p y.p
        = ((y.shifted (min x.p y.p) : Int) : ℚ) * (2 : ℚ) ^ min x.p y.p := by
      rw [← Dyadic.toQ_shifted_base x _ (min_le_left _ _),
        ← Dyadic.toQ_shifted_base y _ (min_le_right _ _)]
      exact h
    have h3 := mul_right_cancel₀
      (zpow_ne_zero _ (by norm_num : (2 : ℚ) ≠ 0)) h2
    exact_mod_cast h3

/-! Section: Claim C2 -/

/-- C2: when the referenced fleet is Rented-in and the supplier selection
yields no valid supplier (empty table, unparseable input, or unknown id),
`add_hire` fails with `ValidationError(SupplierRequired)` and the store —
in particular the hire table — is unchanged. -/
theorem rentedin_missing_supplier_rejected
    (st : Store) (fleetId driverIn custIn suppIn hireType startDate endDate : String)
    (rate : Dyadic) (quantity : Int) (f : Fleet) (dId cId : Int)
    (hf : st.fleets.find? (fun x => x.fleetId == fleetId) = some f)
    (hro : f.ownership = "Rented-in")
    (hd : chooseFromTable st.drivers driverIn = some dId)
    (hc : chooseFromTable st.customers custIn = some cId)
    (hs : chooseFromTable st.suppliers suppIn = none) :
    addHire st fleetId driverIn custIn suppIn hireType startDate endDate rate quantity
      = (st, .error (.validation .supplierRequired)) := by
  have hr : resolveSupplier st (f.ownership == "Rented-in") suppIn
      = .error (.validation .supplierRequired) := by
    unfold resolveSupplier
    rw [hro]
    simp only [show (("Rented-in" : String) == "Rented-in") = true from rfl,
      if_true, hs]
  exact addHire_supplier_error st fleetId driverIn custIn suppIn hireType
    startDate endDate rate quantity f dId cId _ hf hd hc hr

/-- Witness for C2: a Rented-in fleet with an empty supplier table. -/
theorem rentedin_missing_supplier_rejected_witness :
    addHire rentedStore "F1" "1" "1" "" "Daily" "2024-01-01" "" ⟨100, 0⟩ 1
      = (rentedStore, .error (.validation .supplierRequired)) :=
  rentedin_missing_supplier_rejected rentedStore "F1" "1" "1" "" "Daily"
    "2024-01-01" "" ⟨100, 0⟩ 1 ⟨"F1", "Rented-in"⟩ 1 1 (by decide) rfl
    (by decide) (by decide) (by decide)

/-! Section: Claim C5 -/

/-- C5: a hire type outside the four enumerated values makes the INSERT
fail its CHECK constraint: `add_hire` fails (the error surfaces as an
integrity violation, named `ValidationError(InvalidHireType)` in the
abstract taxonomy) and no hire row is persisted. -/
theorem hire_type_outside_enum_rejected
    (st : Store) (fleetId driverIn custIn suppIn hireType startDate endDate : String)
    (rate : Dyadic) (quantity : Int) (f : Fleet) (dId cId : Int) (sid : Option Int)
    (hf : st.fleets.find? (fun x => x.fleetId == fleetId) = some f)
    (hd : chooseFromTable st.drivers driverIn = some dId)
    (hc : chooseFromTable st.customers custIn = some cId)
    (hs : resolveSupplier st (f.ownership == "Rented-in") suppIn = .ok sid)
    (ht : hireTypes.contains hireType = false) :
    addHire st fleetId driverIn custIn suppIn hireType startDate endDate rate quantity
      = (st, .error (.validation .invalidHireType)) := by
  unfold addHire
  simp only [hf, hd, hc, hs, ht, Bool.false_eq_true, if_false]

/-- Witness for C5: hire type `Hourly` is rejected, store unchanged. -/
theorem hire_type_outside_enum_rejected_witness :
    addHire ownedStore "F1" "1" "1" "" "Hourly" "2024-01-01" "" ⟨100, 0⟩ 1
      = (ownedStore, .error (.validation .invalidHireType)) :=
  hire_type_outside_enum_rejected ownedStore "F1" "1" "1" "" "Hourly"
    "2024-01-01" "" ⟨100, 0⟩ 1 ⟨"F1", "Owned"⟩ 1 1 none (by decide) (by decide)
    (by decide) (by decide) (by decide)

/-! Section: Claim C10 -/

/-- C10: `add_hire` performs no positivity validation on rate or
quantity: for every rate (zero and negatives included) and every integer
quantity (zero and negatives included), once the reference checks and the
hire-type constraint pass, a hire row is persisted whose total is the
Python float product `rate * quantity` and whose status is Open. -/
theorem hire_creation_no_positivity_checks
    (st : Store) (fleetId driverIn custIn suppIn hireType startDate endDate : String)
    (rate : Dyadic) (quantity : Int) (f : Fleet) (dId cId : Int) (sid : Option Int)
    (hf : st.fleets.find? (fun x => x.fleetId == fleetId) = some f)
    (hd : chooseFromTable st.drivers driverIn = some dId)
    (hc : chooseFromTable st.customers custIn = some cId)
    (hs : resolveSupplier st (f.ownership == "Rented-in") suppIn = .ok sid)
    (ht : hireTypes.contains hireType = true) :
    addHire st fleetId driverIn custIn suppIn hireType startDate endDate rate quantity
      = ({ st with
            hires := st.hires ++
              [mkHire st fleetId dId cId sid hireType startDate endDate rate quantity],
            nextHireId := st.nextHireId + 1 },
         .ok (mkHire st fleetId dId cId sid hireType startDate endDate rate quantity))
    ∧ (mkHire st fleetId dId cId sid hireType startDate endDate rate quantity).total
        = dyMul rate (dyOfInt quantity)
    ∧ (mkHire st fleetId dId cId sid hireType startDate endDate rate quantity).status
        = "Open" :=
  ⟨addHire_ok st fleetId driverIn custIn suppIn hireType startDate endDate
      rate quantity f dId cId sid hf hd hc hs ht, rfl, rfl⟩

/-- Witness for C10 at a negative rate and negative quantity. -/
theorem hire_creation_no_positivity_checks_witness :
    addHire ownedStore "F1" "1" "1" "" "Daily" "2024-01-01" "" ⟨-5, -1⟩ (-3)
      = ({ ownedStore with
            hires := ownedStore.hires ++
              [mkHire ownedStore "F1" 1 1 none "Daily" "2024-01-01" "" ⟨-5, -1⟩ (-3)],
            nextHireId := ownedStore.nextHireId + 1 },
         .ok (mkHire ownedStore "F1" 1 1 none "Daily" "2024-01-01" "" ⟨-5, -1⟩ (-3)))
    ∧ (mkHire ownedStore "F1" 1 1 none "Daily" "2024-01-01" "" ⟨-5, -1⟩ (-3)).total
        = dyMul ⟨-5, -1⟩ (dyOfInt (-3))
    ∧ (mkHire ownedStore "F1" 1 1 none "Daily" "2024-01-01" "" ⟨-5, -1⟩ (-3)).status
        = "Open" :=
  hire_creation_no_positivity_checks ownedStore "F1" "1" "1" "" "Daily"
    "2024-01-01" "" ⟨-5, -1⟩ (-3) ⟨"F1", "Owned"⟩ 1 1 none (by decide) (by decide)
    (by decide) (by decide) (by decide)

/-! Section: Claim C6 -/

/-- C6 (amended): the persisted total is the IEEE-754 double product of
rate and quantity, i.e. the exact product rounded to the nearest double;
it equals the exact product `rate * quantity` precisely when that product
is representable (as in the spec's example 150.00 x 3 = 450.00), but not
for every valid pair. -/
theorem hire_total_ieee_product
    (st : Store) (fleetId driverIn custIn suppIn hireType startDate endDate : String)
    (rate : Dyadic) (quantity : Int) (f : Fleet) (dId cId : Int) (sid : Option Int)
    (hf : st.fleets.find? (fun x => x.fleetId == fleetId) = some f)
    (hd : chooseFromTable st.drivers driverIn = some dId)
    (hc : chooseFromTable st.customers custIn = some cId)
    (hs : resolveSupplier st (f.ownership == "Rented-in") suppIn = .ok sid)
    (ht : hireTypes.contains hireType = true) :
    ∃ h : Hire,
      addHire st fleetId driverIn custIn suppIn hireType startDate endDate rate quantity
        = ({ st with hires := st.hires ++ [h], nextHireId := st.nextHireId + 1 }, .ok h)
      ∧ h.total = dyMul rate (dyOfInt quantity)
      ∧ ((dyMul rate (dyOfInt quantity)).toQ = rate.toQ * (quantity : ℚ) →
          h.total.toQ = rate.toQ * (quantity : ℚ)) :=
  ⟨mkHire st fleetId dId cId sid hireType startDate endDate rate quantity,
    addHire_ok st fleetId driverIn custIn suppIn hireType startDate endDate
      rate quantity f dId cId sid hf hd hc hs ht,
    rfl, fun hx => hx⟩

/-- Witness for the amended C6 at the spec's example: rate 150, quantity
3 give the exactly representable total 450. -/
theorem hire_total_ieee_product_witness :
    (∃ h : Hire,
      addHire ownedStore "F1" "1" "1" "" "Daily" "2024-01-01" "" ⟨150, 0⟩ 3
        = ({ ownedStore with hires := ownedStore.hires ++ [h], nextHireId := ownedStore.nextHireId + 1 }, .ok h)
      ∧ h.total = dyMul ⟨150, 0⟩ (dyOfInt 3)
      ∧ ((dyMul ⟨150, 0⟩ (dyOfInt 3)).toQ = Dyadic.toQ ⟨150, 0⟩ * ((3 : Int) : ℚ) →
          h.total.toQ = Dyadic.toQ ⟨150, 0⟩ * ((3 : Int) : ℚ)))
    ∧ dyMul ⟨150, 0⟩ (dyOfInt 3) = ⟨450, 0⟩ :=
  ⟨hire_total_ieee_product ownedStore "F1" "1" "1" "" "Daily" "2024-01-01" ""
      ⟨150, 0⟩ 3 ⟨"F1", "Owned"⟩ 1 1 none (by decide) (by decide) (by decide)
      rfl (by decide),
    by decide⟩

/-- C6 counterexample: with rate the double nearest 0.1 (a valid float
input) and quantity 3, `add_hire` persists a hire, but the stored total
(the rounded product) differs from the exact product rate x 3: the claim
"total = rate x quantity exactly, with no floating-point drift" fails. -/
theorem hire_total_drift_counterexample :
    ((addHire ownedStore "F1" "1" "1" "" "Daily" "2024-01-01" "" dq01 3).2).map
        (fun h => h.total) = .ok (⟨5404319552844596, -54⟩ : Dyadic)
    ∧ (addHire ownedStore "F1" "1" "1" "" "Daily" "2024-01-01" "" dq01 3).1.hires.length
        = ownedStore.hires.length + 1
    ∧ dq01.isDouble
    ∧ Dyadic.toQ ⟨5404319552844596, -54⟩ ≠ dq01.toQ * ((3 : Int) : ℚ) := by
  refine ⟨by decide, by decide, by decide, ?_⟩
  intro heq
  have h2 : Dyadic.toQ ⟨21617278211378382, -56⟩ = dq01.toQ * ((3 : Int) : ℚ) := by
    unfold Dyadic.toQ dq01
    push_cast
    ring
  rw [← h2] at heq
  have h3 := (dyEq_iff_toQ ⟨5404319552844596, -54⟩ ⟨21617278211378382, -56⟩).mpr heq
  exact absurd h3 (by decide)

/-! Section: Claim C4 -/

/-- C4 counterexample: with an Owned fleet, supplier input `99` parses as
an integer and is accepted although supplier 99 does not exist in the
reference store; a hire row is persisted carrying supplier 99, instead of
the claimed `NotFound(Supplier)` failure with nothing persisted. -/
theorem owned_unknown_supplier_accepted :
    ((addHire ownedStore "F1" "1" "1" "99" "Daily" "2024-01-01" "" ⟨100, 0⟩ 1).2).map
        (fun h => h.supplierId) = .ok (some 99)
    ∧ (addHire ownedStore "F1" "1" "1" "99" "Daily" "2024-01-01" "" ⟨100, 0⟩ 1).1.hires.length
        = ownedStore.hires.length + 1
    ∧ ownedStore.suppliers.contains 99 = false := by
  refine ⟨by decide, by decide, by decide⟩

/-- C4 (amended): in the Owned branch the supplier input undergoes only
integer parsing, never an existence check: any parseable id is persisted
with the hire, and only a nonempty unparseable input aborts the operation
(leaving the store unchanged). -/
theorem owned_supplier_parse_only
    (st : Store) (fleetId driverIn custIn suppIn hireType startDate endDate : String)
    (rate : Dyadic) (quantity : Int) (f : Fleet) (dId cId : Int)
    (hf : st.fleets.find? (fun x => x.fleetId == fleetId) = some f)
    (hro : f.ownership = "Owned")
    (hd : chooseFromTable st.drivers driverIn = some dId)
    (hc : chooseFromTable st.customers custIn = some cId) :
    (∀ sid : Int, pyInt suppIn = some sid → hireTypes.contains hireType = true →
        addHire st fleetId driverIn custIn suppIn hireType startDate endDate rate quantity
          = ({ st with
                hires := st.hires ++
                  [mkHire st fleetId dId cId (some sid) hireType startDate endDate rate quantity],
                nextHireId := st.nextHireId + 1 },
             .ok (mkHire st fleetId dId cId (some sid) hireType startDate endDate rate quantity)))
    ∧ (suppIn ≠ "" → pyInt suppIn = none →
        addHire st fleetId driverIn custIn suppIn hireType startDate endDate rate quantity
          = (st, .error (.validation .invalidSupplierInput))) := by
  have hbeq : (f.ownership == "Rented-in") = false := by
    rw [hro]
    rfl
  constructor
  · intro sid hps ht
    have hne : suppIn ≠ "" := by
      intro he
      rw [he, show pyInt "" = (none : Option Int) from rfl] at hps
      cases hps
    have hs : resolveSupplier st (f.ownership == "Rented-in") suppIn
        = .ok (some sid) := by
      unfold resolveSupplier
      rw [hbeq]
      simp only [Bool.false_eq_true, if_false, if_neg hne, hps]
    exact addHire_ok st fleetId driverIn custIn suppIn hireType startDate
      endDate rate quantity f dId cId (some sid) hf hd hc hs ht
  · intro hne hps
    have hs : resolveSupplier st (f.ownership == "Rented-in") suppIn
        = .error (.validation .invalidSupplierInput) := by
      unfold resolveSupplier
      rw [hbeq]
      simp only [Bool.false_eq_true, if_false, if_neg hne, hps]
    exact addHire_supplier_error st fleetId driverIn custIn suppIn hireType
      startDate endDate rate quantity f dId cId _ hf hd hc hs

/-- Witness for the amended C4: supplier input `99` (no such supplier) is
persisted; supplier input `x` aborts without persisting. -/
theorem owned_supplier_parse_only_witness :
    addHire ownedStore "F1" "1" "1" "99" "Daily" "2024-01-01" "" ⟨100, 0⟩ 1
      = ({ ownedStore with
            hires := ownedStore.hires ++
              [mkHire ownedStore "F1" 1 1 (some 99) "Daily" "2024-01-01" "" ⟨100, 0⟩ 1],
            nextHireId := ownedStore.nextHireId + 1 },
         .ok (mkHire ownedStore "F1" 1 1 (some 99) "Daily" "2024-01-01" "" ⟨100, 0⟩ 1))
    ∧ addHire ownedStore "F1" "1" "1" "x" "Daily" "2024-01-01" "" ⟨100, 0⟩ 1
        = (ownedStore, .error (.validation .invalidSupplierInput)) :=
  ⟨(owned_supplier_parse_only ownedStore "F1" "1" "1" "99" "Daily" "2024-01-01"
      "" ⟨100, 0⟩ 1 ⟨"F1", "Owned"⟩ 1 1 (by decide) rfl (by decide) (by decide)).1
      99 (by decide) (by decide),
    (owned_supplier_parse_only ownedStore "F1" "1" "1" "x" "Daily" "2024-01-01"
      "" ⟨100, 0⟩ 1 ⟨"F1", "Owned"⟩ 1 1 (by decide) rfl (by decide) (by decide)).2
      (by decide) (by decide)⟩

/-! Section: Claim C3 -/

/-- C3: whenever no hire with the selected id has status Completed —
including unknown ids — `create_invoice_from_hire` fails with
`ValidationError(HireNotCompleted)` and the store (in particular the
invoice table) is unchanged.  The validation depends only on the hires'
stored statuses at creation time, not on anything previously displayed. -/
theorem invoice_requires_completed_hire
    (st : Store) (hid : Int) (date : String)
    (h : ∀ hr ∈ st.hires, hr.hireId = hid → hr.status ≠ "Completed") :
    createInvoiceFromHire st hid date
      = (st, .error (.validation .hireNotCompleted)) := by
  have hfind : (st.hires.filter (fun x => x.status == "Completed")).find?
      (fun x => x.hireId == hid) = none := by
    rw [List.find?_eq_none]
    intro x hx
    obtain ⟨hmem, hstat⟩ := List.mem_filter.mp hx
    intro hbeq
    exact h x hmem (by simpa using hbeq) (by simpa using hstat)
  simp only [createInvoiceFromHire]
  split
  · rfl
  · simp only [hfind]

/-- Witness for C3: invoicing the sole hire, which is still Open. -/
theorem invoice_requires_completed_hire_witness :
    createInvoiceFromHire openHireStore 1 "2024-01-01"
      = (openHireStore, .error (.validation .hireNotCompleted)) :=
  invoice_requires_completed_hire openHireStore 1 "2024-01-01" (by decide)

/-! Section: Claim C8 -/

/-- C8: when the most recently created invoice's number has a suffix
after the last `-` that `int(...)` cannot parse, the generator does not
crash: it falls back to sequence value 1 and returns `INV-0001`. -/
theorem generator_unparseable_suffix_fallback
    (st : Store) (inv : Invoice)
    (hlast : st.invoices.getLast? = some inv)
    (hbad : pyIntOfChars ((splitOnChar '-' inv.invoiceNo.data).getLastD []) = none) :
    generateInvoiceNo st = "INV-0001" := by
  unfold generateInvoiceNo
  rw [hlast]
  simp only [hbad]
  decide

/-- Witness for C8: the stored number `INV-ABCD` yields `INV-0001`. -/
theorem generator_unparseable_suffix_fallback_witness :
    generateInvoiceNo corruptInvoiceStore = "INV-0001" :=
  generator_unparseable_suffix_fallback corruptInvoiceStore
    { invoiceId := 1, invoiceNo := "INV-ABCD", hireId := 1, customerId := 1,
      invoiceDate := "2024-01-01", amount := ⟨500, 0⟩, paymentStatus := "Unpaid" }
    (by decide) (by decide)

/-! Section: Claim C9 -/

/-- C9 counterexample: a hire whose persisted supplier id is the integer
0 — a non-null reference, reachable through the Owned branch of
`add_hire` — is rejected by `add_supplier_payment` as if it had no
supplier (Python truthiness of `SupplierID`), instead of the claimed
creation of a payment with that supplier. -/
theorem supplier_zero_treated_as_missing :
    addSupplierPayment zeroSupplierStore 1 "2024-01-01" ⟨100, 0⟩
      = (zeroSupplierStore, .error (.validation .noSupplierOnHire))
    ∧ zeroSupplierStore.hires.map (fun x => x.supplierId) = [some 0]
    ∧ zeroSupplierStore.payments = [] := by
  refine ⟨by decide, by decide, by decide⟩

/-- C9 (amended): recording a supplier payment fails with
`ValidationError(NoSupplierOnHire)` when the hire's supplier reference is
NULL or the integer 0 (both falsy in Python), and no payment is
persisted; for every other supplier reference S the created payment's
supplier equals S — derived from the hire, never supplied — and its
status is Pending. -/
theorem supplier_payment_derived_from_hire
    (st : Store) (hid : Int) (date : String) (amt : Dyadic) (h : Hire)
    (hfind : st.hires.find? (fun x => x.hireId == hid) = some h) :
    ((h.supplierId = none ∨ h.supplierId = some 0) →
        addSupplierPayment st hid date amt
          = (st, .error (.validation .noSupplierOnHire)))
    ∧ (∀ sid : Int, h.supplierId = some sid → sid ≠ 0 →
        addSupplierPayment st hid date amt
          = ({ st with
                payments := st.payments ++
                  [⟨st.nextPaymentId, sid, hid, date, amt, "Pending"⟩],
                nextPaymentId := st.nextPaymentId + 1 },
             .ok ⟨st.nextPaymentId, sid, hid, date, amt, "Pending"⟩)) := by
  constructor
  · intro hcase
    unfold addSupplierPayment
    rcases hcase with hn | h0
    · simp only [hfind, hn]
      rfl
    · simp only [hfind, h0, show ((0 : Int) == 0) = true from rfl, if_true]
  · intro sid hsid hza
    have hbeq : (sid == 0) = false := by
      rw [beq_eq_false_iff_ne]
      exact hza
    unfold addSupplierPayment
    simp only [hfind, hsid, hbeq, Bool.false_eq_true, if_false, Option.getD_some]

/-- Witness for the amended C9: a NULL-supplier hire is rejected; the
hire with supplier 7 produces a Pending payment carrying supplier 7. -/
theorem supplier_payment_derived_from_hire_witness :
    addSupplierPayment noSupplierStore 1 "2024-01-01" ⟨100, 0⟩
      = (noSupplierStore, .error (.validation .noSupplierOnHire))
    ∧ addSupplierPayment openHireStore 1 "2024-01-01" ⟨100, 0⟩
      = ({ openHireStore with
            payments := openHireStore.payments ++
              [⟨openHireStore.nextPaymentId, 7, 1, "2024-01-01", ⟨100, 0⟩, "Pending"⟩],
            nextPaymentId := openHireStore.nextPaymentId + 1 },
         .ok ⟨openHireStore.nextPaymentId, 7, 1, "2024-01-01", ⟨100, 0⟩, "Pending"⟩) :=
  ⟨(supplier_payment_derived_from_hire noSupplierStore 1 "2024-01-01" ⟨100, 0⟩
      { sampleHire with supplierId := none } (by decide)).1 (Or.inl rfl),
    (supplier_payment_derived_from_hire openHireStore 1 "2024-01-01" ⟨100, 0⟩
      sampleHire (by decide)).2 7 rfl (by decide)⟩

/-! Section: Lemma layer: SQLite LIKE semantics -/

theorem likeMatch_percent_nil (q : List Char) :
    likeMatch ('%' :: q) [] = likeMatch q [] := by
  simp [likeMatch]

theorem likeMatch_percent_cons (q : List Char) (d : Char) (s' : List Char) :
    likeMatch ('%' :: q) (d :: s')
      = (likeMatch q (d :: s') || likeMatch ('%' :: q) s') := by
  conv_lhs => unfold likeMatch
  simp

theorem likeMatch_lit_nil (c : Char) (p : List Char) (hc : c ≠ '%') :
    likeMatch (c :: p) [] = false := by
  conv_lhs => unfold likeMatch
  simp [hc]

theorem likeMatch_lit_cons (c : Char) (p : List Char) (d : Char)
    (s' : List Char) (hc : c ≠ '%') (hu : c ≠ '_') :
    likeMatch (c :: p) (d :: s')
      = (decide (foldAscii c = foldAscii d) && likeMatch p s') := by
  conv_lhs => unfold likeMatch
  simp [hc, hu]

theorem likeMatch_percent_all (s : List Char) : likeMatch ['%'] s = true := by
  induction s with
  | nil => simp [likeMatch]
  | cons d r ih =>
    rw [likeMatch_percent_cons, Bool.or_eq_true]
    right
    exact ih

theorem likeMatch_percent_iff (q : List Char) (s : List Char) :
    likeMatch ('%' :: q) s = true
      ↔ ∃ a b, s = a ++ b ∧ likeMatch q b = true := by
  induction s with
  | nil =>
    rw [likeMatch_percent_nil]
    constructor
    · intro h
      exact ⟨[], [], rfl, h⟩
    · rintro ⟨a, b, heq, hm⟩
      obtain ⟨ha, hb⟩ := List.append_eq_nil.mp heq.symm
      rw [hb] at hm
      exact hm
  | cons d s' ih =>
    rw [likeMatch_percent_cons, Bool.or_eq_true]
    constructor
    · rintro (h | h)
      · exact ⟨[], d :: s', rfl, h⟩
      · obtain ⟨a, b, heq, hm⟩ := ih.mp h
        exact ⟨d :: a, b, by rw [heq]; rfl, hm⟩
    · rintro ⟨a, b, heq, hm⟩
      cases a with
      | nil =>
        left
        rw [List.nil_append] at heq
        rw [← heq] at hm
        exact hm
      | cons a0 a' =>
        right
        rw [List.cons_append] at heq
        injection heq with h1 h2
        exact ih.mpr ⟨a', b, h2, hm⟩

theorem likeMatch_lit_pct (v : List Char)
    (hv : ∀ c ∈ v, c ≠ '%' ∧ c ≠ '_') (rest : List Char) :
    likeMatch (v ++ ['%']) rest = true
      ↔ ∃ m b, rest = m ++ b ∧ m.map foldAscii = v.map foldAscii := by
  induction v generalizing rest with
  | nil =>
    simp only [List.nil_append, List.map_nil]
    constructor
    · intro _
      exact ⟨[], rest, rfl, rfl⟩
    · intro _
      exact likeMatch_percent_all rest
  | cons c p ih =>
    have hc := hv c (by simp)
    have hp : ∀ x ∈ p, x ≠ '%' ∧ x ≠ '_' := fun x hx => hv x (by simp [hx])
    cases rest with
    | nil =>
      rw [List.cons_append, likeMatch_lit_nil c (p ++ ['%']) hc.1]
      simp only [Bool.false_eq_true, false_iff]
      rintro ⟨m, b, heq, hmap⟩
      obtain ⟨hm, hb⟩ := List.append_eq_nil.mp heq.symm
      rw [hm] at hmap
      simp at hmap
    | cons d r =>
      rw [List.cons_append, likeMatch_lit_cons c (p ++ ['%']) d r hc.1 hc.2,
        Bool.and_eq_true, decide_eq_true_eq]
      constructor
      · rintro ⟨hfold, hm⟩
        obtain ⟨m, b, heq, hmap⟩ := (ih hp r).mp hm
        exact ⟨d :: m, b, by rw [heq]; rfl, by simp [hmap, hfold]⟩
      · rintro ⟨m, b, heq, hmap⟩
        cases m with
        | nil => simp at hmap
        | cons m0 m' =>
          rw [List.cons_append] at heq
          injection heq with h1 h2
          simp only [List.map_cons, List.cons.injEq] at hmap
          subst h1
          exact ⟨hmap.1.symm, (ih hp r).mpr ⟨m', b, h2, hmap.2⟩⟩

/-! Section: Claim C7 -/

/-- C7 counterexample: the status filter `open` returns the hire whose
status is `Open`, although `open` is not a case-sensitive substring of
`Open` — SQLite `LIKE` is case-insensitive for ASCII by default, so the
claimed case-sensitive semantics does not hold. -/
theorem search_like_case_insensitive_counterexample :
    searchHires statusSearchStore "open" = [sampleHire]
    ∧ ¬ List.IsInfix "open".data sampleHire.status.data := by
  constructor
  · simp only [searchHires, statusSearchStore, baseStore, sampleHire]
    simp [likeMatch, likePat, foldAscii, List.filter]
  · decide

/-- C7 (amended): for a wildcard-free filter value v, `search_hires`
returns exactly the hires whose status contains, as a contiguous
substring, a string that equals v up to ASCII case (SQLite's default
case-insensitive `LIKE` with pattern `%v%`); the operation reads the
store without modifying it (it is a pure projection by construction). -/
theorem searchHires_case_insensitive_substring
    (st : Store) (v : String) (hr : Hire)
    (hv : ∀ c ∈ v.data, c ≠ '%' ∧ c ≠ '_') :
    hr ∈ searchHires st v
      ↔ hr ∈ st.hires ∧
        ∃ m : List Char, List.IsInfix m hr.status.data
          ∧ m.map foldAscii = v.data.map foldAscii := by
  unfold searchHires likePat
  rw [List.mem_filter]
  apply and_congr_right
  intro _
  constructor
  · intro hb
    obtain ⟨a, b, heq, hb2⟩ := (likeMatch_percent_iff _ _).mp hb
    obtain ⟨m, b2, heq2, hmap⟩ := (likeMatch_lit_pct v.data hv b).mp hb2
    refine ⟨m, ⟨a, b2, ?_⟩, hmap⟩
    rw [heq, heq2]
    simp [List.append_assoc]
  · rintro ⟨m, ⟨a, t, hinfix⟩, hmap⟩
    apply (likeMatch_percent_iff _ _).mpr
    refine ⟨a, m ++ t, ?_, (likeMatch_lit_pct v.data hv _).mpr ⟨m, t, rfl, hmap⟩⟩
    rw [← hinfix]
    simp [List.append_assoc]

/-- Witness for the amended C7 at a concrete store and filter. -/
theorem searchHires_case_insensitive_substring_witness :
    sampleHire ∈ searchHires statusSearchStore "open"
      ↔ sampleHire ∈ statusSearchStore.hires ∧
        ∃ m : List Char, List.IsInfix m sampleHire.status.data
          ∧ m.map foldAscii = "open".data.map foldAscii :=
  searchHires_case_insensitive_substring statusSearchStore "open" sampleHire
    (by decide)

end RentedFleet
